import Mathlib

/-!
Verification of the history-hub native parsing core (src/native/src/lib.rs).

The Rust source is shallowly embedded: JSON values are an inductive type,
serde-style decoding of the record schema is explicit, the two entry
operations are modelled as functions over the ordered stream of line reads
(each line read either yields the line text or an I/O error, mirroring
`BufReader::lines`).  The `i32` token totals are modelled as `Int` values
kept in the i32 range by explicit two's-complement wrapping on every
addition, matching the release-build semantics of `+=` on `i32`; the
record counters are modelled as `Nat` (their divergence from `i32` needs
more than 2^31 decoded records in one file, unreachable by any field
value).
-/

set_option maxRecDepth 100000

namespace HistoryHub

/-- JSON values, as produced by the JSON text parser.  Numeric literals are
tracked by their integer value together with a flag telling whether the
literal was an integer (no fraction, no exponent); the record schema only
ever reads integer-valued numbers, so non-integer numbers are kept only
shape-accurately. -/
inductive Json where
  | null : Json
  | bool (b : Bool) : Json
  | num (v : Int) (isInt : Bool) : Json
  | str (s : String) : Json
  | arr (elems : List Json) : Json
  | obj (fields : List (String × Json)) : Json

/-- Image source data (struct `ImageSource`). -/
structure ImageSource where
  source_type : String
  media_type : String
  data : String

/-- Content item variants (enum `ContentItem`, internally tagged by "type"). -/
inductive ContentItem where
  | text (text : String) : ContentItem
  | thinking (thinking : String) (signature : Option String) : ContentItem
  | toolUse (id : String) (name : String) (input : Json) : ContentItem
  | toolResult (tool_use_id : String) (content : Json) (is_error : Option Bool) : ContentItem
  | image (source : ImageSource) : ContentItem

/-- Token usage (struct `TokenUsage`). -/
structure TokenUsage where
  input_tokens : Int
  output_tokens : Int
  cache_creation_input_tokens : Option Int
  cache_read_input_tokens : Option Int

/-- Message object (struct `MessageObject`). -/
structure MessageObject where
  role : String
  content : List ContentItem
  model : Option String
  id : Option String
  stop_reason : Option String
  usage : Option TokenUsage

/-- Raw log entry (struct `RawLogEntry`), one decoded JSONL line. -/
structure RawLogEntry where
  entry_type : String
  uuid : Option String
  parent_uuid : Option String
  session_id : Option String
  timestamp : Option String
  message : Option MessageObject
  summary : Option String
  leaf_uuid : Option String
  is_sidechain : Option Bool
  user_type : Option String
  cwd : Option String
  version : Option String

/-- Output projection (struct `ClaudeMessage`). -/
structure ClaudeMessage where
  message_id : String
  session_id : String
  role : String
  content : String
  timestamp : String
  raw_content : String
  has_thinking : Bool
  has_tool_use : Bool
  has_images : Bool
  parent_id : Option String
  model : Option String
  stop_reason : Option String
  input_tokens : Option Int
  output_tokens : Option Int
  cache_creation_tokens : Option Int
  cache_read_tokens : Option Int
  is_sidechain : Option Bool
  user_type : Option String

/-- Output aggregate (struct `ClaudeSession`). -/
structure ClaudeSession where
  session_id : String
  file_path : String
  message_count : Nat
  user_message_count : Nat
  assistant_message_count : Nat
  first_timestamp : Option String
  last_timestamp : Option String
  total_input_tokens : Option Int
  total_output_tokens : Option Int
  has_thinking : Bool
  has_tool_use : Bool
  cwd : Option String

-- ============================================
-- JSON text parser (model of serde_json::from_str's syntax layer)
-- ============================================

/-- JSON insignificant whitespace. -/
def jsonWs (c : Char) : Bool :=
  c = ' ' || c = '\t' || c = '\n' || c = '\r'

/-- Skip leading JSON whitespace. -/
def skipWs : List Char → List Char
  | [] => []
  | c :: cs => if jsonWs c then skipWs cs else c :: cs

/-- Hexadecimal digit value. -/
def hexVal (c : Char) : Option Nat :=
  if '0' ≤ c ∧ c ≤ '9' then some (c.toNat - '0'.toNat)
  else if 'a' ≤ c ∧ c ≤ 'f' then some (c.toNat - 'a'.toNat + 10)
  else if 'A' ≤ c ∧ c ≤ 'F' then some (c.toNat - 'A'.toNat + 10)
  else none

/-- Decimal digit value. -/
def digitVal (c : Char) : Option Nat :=
  if '0' ≤ c ∧ c ≤ '9' then some (c.toNat - '0'.toNat) else none

/-- Parse the body of a JSON string literal (after the opening quote),
accumulating decoded characters in reverse.  Handles the JSON escapes,
including \uXXXX with surrogate pairs; rejects raw control characters and
lone surrogates, as serde_json does. -/
def parseStringBody : List Char → List Char → Option (String × List Char)
  | [], _ => none
  | '"' :: rest, acc => some (String.mk acc.reverse, rest)
  | '\\' :: esc, acc =>
    match esc with
    | '"' :: rest => parseStringBody rest ('"' :: acc)
    | '\\' :: rest => parseStringBody rest ('\\' :: acc)
    | '/' :: rest => parseStringBody rest ('/' :: acc)
    | 'b' :: rest => parseStringBody rest ('\x08' :: acc)
    | 'f' :: rest => parseStringBody rest ('\x0c' :: acc)
    | 'n' :: rest => parseStringBody rest ('\n' :: acc)
    | 'r' :: rest => parseStringBody rest ('\r' :: acc)
    | 't' :: rest => parseStringBody rest ('\t' :: acc)
    | 'u' :: h1 :: h2 :: h3 :: h4 :: rest =>
      match hexVal h1, hexVal h2, hexVal h3, hexVal h4 with
      | some a, some b, some c, some d =>
        let n := ((a * 16 + b) * 16 + c) * 16 + d
        if n < 0xD800 ∨ 0xDFFF < n then
          parseStringBody rest (Char.ofNat n :: acc)
        else if n < 0xDC00 then
          match rest with
          | '\\' :: 'u' :: g1 :: g2 :: g3 :: g4 :: rest2 =>
            match hexVal g1, hexVal g2, hexVal g3, hexVal g4 with
            | some e, some f, some g, some h =>
              let m := ((e * 16 + f) * 16 + g) * 16 + h
              if 0xDC00 ≤ m ∧ m ≤ 0xDFFF then
                parseStringBody rest2
                  (Char.ofNat (0x10000 + (n - 0xD800) * 0x400 + (m - 0xDC00)) :: acc)
              else none
            | _, _, _, _ => none
          | _ => none
        else none
      | _, _, _, _ => none
    | _ => none
  | c :: rest, acc =>
    if c.toNat < 0x20 then none else parseStringBody rest (c :: acc)

/-- Take the longest run of leading decimal digits. -/
def takeDigits : List Char → (List Nat × List Char)
  | [] => ([], [])
  | c :: cs =>
    match digitVal c with
    | some d =>
      let p := takeDigits cs
      (d :: p.1, p.2)
    | none => ([], c :: cs)

/-- Fold decimal digits into a natural number. -/
def digitsToNat (ds : List Nat) : Nat :=
  ds.foldl (fun acc d => acc * 10 + d) 0

/-- Parse a JSON number starting at the current position (handles the
optional minus sign, the no-leading-zero rule, and optional fraction and
exponent parts; the value is retained exactly only for integer literals). -/
def parseNumberStart (cs : List Char) : Option (Json × List Char) :=
  let (neg, cs1) :=
    match cs with
    | '-' :: rest => (true, rest)
    | _ => (false, cs)
  match takeDigits cs1 with
  | ([], _) => none
  | (ds, rest) =>
    if ds.length > 1 ∧ ds.headI = 0 then none
    else
      let fracPart : Option (Bool × List Char) :=
        match rest with
        | '.' :: fs =>
          match takeDigits fs with
          | ([], _) => none
          | (_, r) => some (true, r)
        | _ => some (false, rest)
      match fracPart with
      | none => none
      | some (hasFrac, rest2) =>
        let (hasExp, rest3) :=
          match rest2 with
          | 'e' :: es => (true, es)
          | 'E' :: es => (true, es)
          | _ => (false, rest2)
        if hasExp then
          let rest4 :=
            match rest3 with
            | '+' :: r => r
            | '-' :: r => r
            | _ => rest3
          match takeDigits rest4 with
          | ([], _) => none
          | (_, rest5) => some (Json.num 0 false, rest5)
        else
          let v : Int := Int.ofNat (digitsToNat ds)
          if hasFrac then some (Json.num 0 false, rest2)
          else some (Json.num (if neg then -v else v) true, rest)

mutual

/-- Parse one JSON value (fuelled; the entry points supply ample fuel). -/
def parseValue : Nat → List Char → Option (Json × List Char)
  | 0, _ => none
  | Nat.succ fuel, cs =>
    match skipWs cs with
    | 'n' :: 'u' :: 'l' :: 'l' :: rest => some (Json.null, rest)
    | 't' :: 'r' :: 'u' :: 'e' :: rest => some (Json.bool true, rest)
    | 'f' :: 'a' :: 'l' :: 's' :: 'e' :: rest => some (Json.bool false, rest)
    | '"' :: rest =>
      match parseStringBody rest [] with
      | some (s, rest2) => some (Json.str s, rest2)
      | none => none
    | '[' :: rest =>
      match skipWs rest with
      | ']' :: rest2 => some (Json.arr [], rest2)
      | cs2 =>
        match parseElems fuel cs2 with
        | some (vs, rest2) => some (Json.arr vs, rest2)
        | none => none
    | '\x7b' :: rest =>
      match skipWs rest with
      | '\x7d' :: rest2 => some (Json.obj [], rest2)
      | cs2 =>
        match parseMembers fuel cs2 with
        | some (fs, rest2) => some (Json.obj fs, rest2)
        | none => none
    | cs2 => parseNumberStart cs2

/-- Parse a non-empty comma-separated list of array elements up to `]`. -/
def parseElems : Nat → List Char → Option (List Json × List Char)
  | 0, _ => none
  | Nat.succ fuel, cs =>
    match parseValue fuel cs with
    | none => none
    | some (v, rest) =>
      match skipWs rest with
      | ',' :: rest2 =>
        match parseElems fuel rest2 with
        | some (vs, rest3) => some (v :: vs, rest3)
        | none => none
      | ']' :: rest2 => some ([v], rest2)
      | _ => none

/-- Parse a non-empty comma-separated list of object members up to the
closing brace. -/
def parseMembers : Nat → List Char → Option (List (String × Json) × List Char)
  | 0, _ => none
  | Nat.succ fuel, cs =>
    match skipWs cs with
    | '"' :: rest =>
      match parseStringBody rest [] with
      | none => none
      | some (k, rest2) =>
        match skipWs rest2 with
        | ':' :: rest3 =>
          match parseValue fuel rest3 with
          | none => none
          | some (v, rest4) =>
            match skipWs rest4 with
            | ',' :: rest5 =>
              match parseMembers fuel rest5 with
              | some (fs, rest6) => some ((k, v) :: fs, rest6)
              | none => none
            | '\x7d' :: rest5 => some ([(k, v)], rest5)
            | _ => none
        | _ => none
    | _ => none

end

/-- Parse a whole JSON document: one value, with only trailing whitespace
allowed, as `serde_json::from_str` requires. -/
def parseJsonText (s : String) : Option Json :=
  match parseValue (2 * s.data.length + 2) s.data with
  | some (v, rest) => if skipWs rest = [] then some v else none
  | none => none

-- ============================================
-- JSON serialization (model of serde_json::to_string on content items;
-- only used for the `raw_content` field of the projection)
-- ============================================

/-- Hex digit character for a value below 16. -/
def hexDigitChar (n : Nat) : Char :=
  if n < 10 then Char.ofNat ('0'.toNat + n) else Char.ofNat ('a'.toNat + n - 10)

/-- Escape one character for a JSON string literal, as serde_json does. -/
def escapeJsonChar (c : Char) : String :=
  if c = '"' then "\\\""
  else if c = '\\' then "\\\\"
  else if c = '\n' then "\\n"
  else if c = '\r' then "\\r"
  else if c = '\t' then "\\t"
  else if c = '\x08' then "\\b"
  else if c = '\x0c' then "\\f"
  else if c.toNat < 0x20 then
    String.mk ['\\', 'u', '0', '0', hexDigitChar (c.toNat / 16), hexDigitChar (c.toNat % 16)]
  else String.mk [c]

/-- Escape a whole string for a JSON string literal. -/
def escapeJsonString (s : String) : String :=
  String.join (s.data.map escapeJsonChar)

mutual

/-- Serialize a JSON value to text (model of serde_json::to_string; a
non-integer numeric payload is not round-tripped exactly, which only
affects `raw_content` for tool payloads and no claim under study). -/
def jsonToString : Json → String
  | Json.null => "null"
  | Json.bool true => "true"
  | Json.bool false => "false"
  | Json.num v _ => toString v
  | Json.str s => "\"" ++ escapeJsonString s ++ "\""
  | Json.arr xs => "[" ++ jsonArrToString xs ++ "]"
  | Json.obj fs => "\x7b" ++ jsonObjToString fs ++ "\x7d"

/-- Serialize array elements, comma separated. -/
def jsonArrToString : List Json → String
  | [] => ""
  | [x] => jsonToString x
  | x :: xs => jsonToString x ++ "," ++ jsonArrToString xs

/-- Serialize object members, comma separated. -/
def jsonObjToString : List (String × Json) → String
  | [] => ""
  | [(k, v)] => "\"" ++ escapeJsonString k ++ "\":" ++ jsonToString v
  | (k, v) :: fs =>
    "\"" ++ escapeJsonString k ++ "\":" ++ jsonToString v ++ "," ++ jsonObjToString fs

end

/-- Re-serialize one content item (serde's Serialize derive: the tag field
first, then the variant fields in declaration order, skipping optional
fields that are absent). -/
def contentItemToJson : ContentItem → Json
  | ContentItem.text t => Json.obj [("type", Json.str "text"), ("text", Json.str t)]
  | ContentItem.thinking th sig =>
    Json.obj ([("type", Json.str "thinking"), ("thinking", Json.str th)] ++
      (match sig with
       | some s => [("signature", Json.str s)]
       | none => []))
  | ContentItem.toolUse id name input =>
    Json.obj [("type", Json.str "tool_use"), ("id", Json.str id),
              ("name", Json.str name), ("input", input)]
  | ContentItem.toolResult tid c isErr =>
    Json.obj ([("type", Json.str "tool_result"), ("tool_use_id", Json.str tid),
               ("content", c)] ++
      (match isErr with
       | some b => [("is_error", Json.bool b)]
       | none => []))
  | ContentItem.image src =>
    Json.obj [("type", Json.str "image"),
              ("source", Json.obj [("type", Json.str src.source_type),
                                   ("media_type", Json.str src.media_type),
                                   ("data", Json.str src.data)])]

/-- Serialize a full content sequence (`serde_json::to_string(&message.content)`). -/
def contentToJsonString (items : List ContentItem) : String :=
  jsonToString (Json.arr (items.map contentItemToJson))

-- ============================================
-- Schema decoding (model of the serde Deserialize derives)
-- ============================================

/-- First binding of a key in a decoded JSON object. -/
def jsonLookup (fields : List (String × Json)) (key : String) : Option Json :=
  (fields.find? (fun f => f.1 = key)).map (fun f => f.2)

/-- Required string field. -/
def getReqString (fields : List (String × Json)) (key : String) : Except String String :=
  match jsonLookup fields key with
  | some (Json.str s) => Except.ok s
  | some _ => Except.error ("invalid type for field " ++ key)
  | none => Except.error ("missing field " ++ key)

/-- Optional string field (absent and null both decode to `none`). -/
def getOptString (fields : List (String × Json)) (key : String) :
    Except String (Option String) :=
  match jsonLookup fields key with
  | none => Except.ok none
  | some Json.null => Except.ok none
  | some (Json.str s) => Except.ok (some s)
  | some _ => Except.error ("invalid type for field " ++ key)

/-- Optional boolean field. -/
def getOptBool (fields : List (String × Json)) (key : String) :
    Except String (Option Bool) :=
  match jsonLookup fields key with
  | none => Except.ok none
  | some Json.null => Except.ok none
  | some (Json.bool b) => Except.ok (some b)
  | some _ => Except.error ("invalid type for field " ++ key)

/-- Decode a JSON value as an i32: must be an integer literal in range. -/
def decodeI32 (v : Json) : Except String Int :=
  match v with
  | Json.num n true =>
    if -(2 ^ 31) ≤ n ∧ n < 2 ^ 31 then Except.ok n
    else Except.error "number out of range for i32"
  | _ => Except.error "invalid type: expected i32"

/-- Required i32 field. -/
def getReqI32 (fields : List (String × Json)) (key : String) : Except String Int :=
  match jsonLookup fields key with
  | some v => decodeI32 v
  | none => Except.error ("missing field " ++ key)

/-- Optional i32 field. -/
def getOptI32 (fields : List (String × Json)) (key : String) :
    Except String (Option Int) :=
  match jsonLookup fields key with
  | none => Except.ok none
  | some Json.null => Except.ok none
  | some v => (decodeI32 v).map some

/-- Decode `ImageSource` (field "type" renamed to `source_type`). -/
def decodeImageSource (v : Json) : Except String ImageSource :=
  match v with
  | Json.obj fields => do
    let st ← getReqString fields "type"
    let mt ← getReqString fields "media_type"
    let d ← getReqString fields "data"
    Except.ok { source_type := st, media_type := mt, data := d }
  | _ => Except.error "invalid type: expected ImageSource object"

/-- Decode one content item against the internally tagged variant schema
(discriminated by the "type" field). -/
def decodeContentItem (v : Json) : Except String ContentItem :=
  match v with
  | Json.obj fields =>
    match jsonLookup fields "type" with
    | some (Json.str "text") => do
      let t ← getReqString fields "text"
      Except.ok (ContentItem.text t)
    | some (Json.str "thinking") => do
      let th ← getReqString fields "thinking"
      let sig ← getOptString fields "signature"
      Except.ok (ContentItem.thinking th sig)
    | some (Json.str "tool_use") => do
      let id ← getReqString fields "id"
      let name ← getReqString fields "name"
      match jsonLookup fields "input" with
      | some input => Except.ok (ContentItem.toolUse id name input)
      | none => Except.error "missing field input"
    | some (Json.str "tool_result") => do
      let tid ← getReqString fields "tool_use_id"
      match jsonLookup fields "content" with
      | some c => do
        let isErr ← getOptBool fields "is_error"
        Except.ok (ContentItem.toolResult tid c isErr)
      | none => Except.error "missing field content"
    | some (Json.str "image") => do
      match jsonLookup fields "source" with
      | some src => do
        let s ← decodeImageSource src
        Except.ok (ContentItem.image s)
      | none => Except.error "missing field source"
    | some (Json.str other) => Except.error ("unknown variant " ++ other)
    | some _ => Except.error "invalid type for tag field type"
    | none => Except.error "missing field type"
  | _ => Except.error "invalid type: expected content item object"

/-- Decode each element of a content array, failing on the first element
that matches no variant (`collect::<Result<Vec<_>, _>>`). -/
def decodeContentItems : List Json → Except String (List ContentItem)
  | [] => Except.ok []
  | v :: vs =>
    match decodeContentItem v with
    | Except.error e => Except.error e
    | Except.ok item =>
      match decodeContentItems vs with
      | Except.error e => Except.error e
      | Except.ok items => Except.ok (item :: items)

/-- Custom deserializer for the content field (fn `deserialize_content`):
a plain string becomes one `Text` item, an array is decoded element-wise,
any other shape fails. -/
def deserialize_content (v : Json) : Except String (List ContentItem) :=
  match v with
  | Json.str s => Except.ok [ContentItem.text s]
  | Json.arr arr => decodeContentItems arr
  | _ => Except.error "Content must be string or array"

/-- Decode `TokenUsage`. -/
def decodeTokenUsage (v : Json) : Except String TokenUsage :=
  match v with
  | Json.obj fields => do
    let it ← getReqI32 fields "input_tokens"
    let ot ← getReqI32 fields "output_tokens"
    let cc ← getOptI32 fields "cache_creation_input_tokens"
    let cr ← getOptI32 fields "cache_read_input_tokens"
    Except.ok { input_tokens := it, output_tokens := ot,
                cache_creation_input_tokens := cc, cache_read_input_tokens := cr }
  | _ => Except.error "invalid type: expected TokenUsage object"

/-- Decode `MessageObject` (the content field goes through
`deserialize_content`). -/
def decodeMessageObject (v : Json) : Except String MessageObject :=
  match v with
  | Json.obj fields => do
    let role ← getReqString fields "role"
    let content ←
      match jsonLookup fields "content" with
      | some cv => deserialize_content cv
      | none => Except.error "missing field content"
    let model ← getOptString fields "model"
    let id ← getOptString fields "id"
    let sr ← getOptString fields "stop_reason"
    let usage ←
      match jsonLookup fields "usage" with
      | none => Except.ok none
      | some Json.null => Except.ok none
      | some uv => (decodeTokenUsage uv).map some
    Except.ok { role := role, content := content, model := model, id := id,
                stop_reason := sr, usage := usage }
  | _ => Except.error "invalid type: expected MessageObject object"

/-- Decode `RawLogEntry` (only the "type" field is strictly required;
unknown fields are ignored, renamed fields use their JSON names). -/
def decodeRawLogEntry (v : Json) : Except String RawLogEntry :=
  match v with
  | Json.obj fields => do
    let et ← getReqString fields "type"
    let uuid ← getOptString fields "uuid"
    let parentUuid ← getOptString fields "parentUuid"
    let sessionId ← getOptString fields "sessionId"
    let timestamp ← getOptString fields "timestamp"
    let message ←
      match jsonLookup fields "message" with
      | none => Except.ok none
      | some Json.null => Except.ok none
      | some mv => (decodeMessageObject mv).map some
    let summary ← getOptString fields "summary"
    let leafUuid ← getOptString fields "leafUuid"
    let isSidechain ← getOptBool fields "isSidechain"
    let userType ← getOptString fields "userType"
    let cwd ← getOptString fields "cwd"
    let version ← getOptString fields "version"
    Except.ok { entry_type := et, uuid := uuid, parent_uuid := parentUuid,
                session_id := sessionId, timestamp := timestamp, message := message,
                summary := summary, leaf_uuid := leafUuid, is_sidechain := isSidechain,
                user_type := userType, cwd := cwd, version := version }
  | _ => Except.error "invalid type: expected RawLogEntry object"

/-- Parse a JSONL line (fn `parse_jsonl_line`): JSON syntax then schema. -/
def parse_jsonl_line (line : String) : Except String RawLogEntry :=
  match parseJsonText line with
  | none => Except.error "invalid JSON"
  | some v => decodeRawLogEntry v

-- ============================================
-- Projection (RawLogEntry -> ClaudeMessage)
-- ============================================

/-- Join strings with a separator (`Vec::join`). -/
def joinSep (sep : String) : List String → String
  | [] => ""
  | [x] => x
  | x :: xs => x ++ sep ++ joinSep sep xs

/-- Extract all text content from a content array (fn `extract_text_content`):
keep `Text` verbatim and `Thinking` behind the literal marker, drop the
rest, join with a blank line. -/
def extract_text_content (content_items : List ContentItem) : String :=
  joinSep "\n\n" (content_items.filterMap (fun item =>
    match item with
    | ContentItem.text text => some text
    | ContentItem.thinking thinking _ => some ("[Thinking]\n" ++ thinking)
    | _ => none))

/-- Check if content has thinking (fn `has_thinking`). -/
def hasThinking (content_items : List ContentItem) : Bool :=
  content_items.any (fun item =>
    match item with
    | ContentItem.thinking _ _ => true
    | _ => false)

/-- Check if content has tool use (fn `has_tool_use`). -/
def hasToolUse (content_items : List ContentItem) : Bool :=
  content_items.any (fun item =>
    match item with
    | ContentItem.toolUse _ _ _ => true
    | _ => false)

/-- Check if content has images (fn `has_images`). -/
def hasImages (content_items : List ContentItem) : Bool :=
  content_items.any (fun item =>
    match item with
    | ContentItem.image _ => true
    | _ => false)

/-- Convert a RawLogEntry to a ClaudeMessage (fn `entry_to_message`):
only "user"/"assistant" entries with a message present project. -/
def entry_to_message (entry : RawLogEntry) : Option ClaudeMessage :=
  if entry.entry_type ≠ "user" ∧ entry.entry_type ≠ "assistant" then none
  else
    match entry.message with
    | none => none
    | some message =>
      let content := extract_text_content message.content
      let raw_content := contentToJsonString message.content
      let hasThinkingFlag := hasThinking message.content
      let hasToolUseFlag := hasToolUse message.content
      let hasImagesFlag := hasImages message.content
      let tok : Option Int × Option Int × Option Int × Option Int :=
        match message.usage with
        | some usage =>
          (some usage.input_tokens, some usage.output_tokens,
           usage.cache_creation_input_tokens, usage.cache_read_input_tokens)
        | none => (none, none, none, none)
      some { message_id := entry.uuid.getD "unknown",
             session_id := entry.session_id.getD "unknown",
             role := message.role,
             content := content,
             timestamp := entry.timestamp.getD "unknown",
             raw_content := raw_content,
             has_thinking := hasThinkingFlag,
             has_tool_use := hasToolUseFlag,
             has_images := hasImagesFlag,
             parent_id := entry.parent_uuid,
             model := message.model,
             stop_reason := message.stop_reason,
             input_tokens := tok.1,
             output_tokens := tok.2.1,
             cache_creation_tokens := tok.2.2.1,
             cache_read_tokens := tok.2.2.2,
             is_sidechain := entry.is_sidechain,
             user_type := entry.user_type }

-- ============================================
-- parse_claude_session (message extraction over the line-read stream)
-- ============================================

/-- `line.trim().is_empty()`: the line is whitespace-only. -/
def isBlank (s : String) : Bool :=
  s.data.all (fun c => c.isWhitespace)

/-- Total UTF-8 byte length of a character sequence (`str::len`). -/
def utf8Len (cs : List Char) : Nat :=
  cs.foldl (fun n c => n + c.utf8Size) 0

/-- Rust byte slicing `&s[..n]` on UTF-8 text: the character sequence whose
encoding is exactly the first `n` bytes, or `none` when byte index `n`
falls inside a multi-byte character (in Rust, a panic). -/
def takeBytes : List Char → Nat → Option (List Char)
  | _, 0 => some []
  | [], _ + 1 => none
  | c :: cs, n + 1 =>
    if c.utf8Size ≤ n + 1 then (takeBytes cs (n + 1 - c.utf8Size)).map (fun p => c :: p)
    else none

/-- The diagnostic preview `&line[..line.len().min(100)]`, or `none` when
the slice panics. -/
def truncPreview (line : String) : Option String :=
  (takeBytes line.data (min (utf8Len line.data) 100)).map String.mk

/-- One per-line diagnostic emitted by the message-extraction path (the
two eprintln calls): line number, parser diagnostic, truncated preview. -/
structure Diag where
  line_num : Nat
  parse_error : String
  preview : String

/-- How a whole call can fail after the file is opened: a line-read I/O
failure mapped through Error::from_reason, or a Rust panic. -/
inductive CallFailure where
  | ioError (msg : String) : CallFailure
  | panicked (msg : String) : CallFailure

/-- The line loop of fn `parse_claude_session`: abort on a line-read
error, skip blank lines, project decodable lines, log a diagnostic for
undecodable lines (which panics when byte 100 is not a char boundary). -/
def parseLoop : List (Except String String) → Nat → List ClaudeMessage → List Diag →
    Except CallFailure (List ClaudeMessage × List Diag)
  | [], _, msgs, diags => Except.ok (msgs.reverse, diags.reverse)
  | l :: rest, n, msgs, diags =>
    match l with
    | Except.error e =>
      Except.error (CallFailure.ioError
        ("Error reading line " ++ toString (n + 1) ++ ": " ++ e))
    | Except.ok line =>
      if isBlank line then parseLoop rest (n + 1) msgs diags
      else
        match parse_jsonl_line line with
        | Except.ok entry =>
          match entry_to_message entry with
          | some m => parseLoop rest (n + 1) (m :: msgs) diags
          | none => parseLoop rest (n + 1) msgs diags
        | Except.error err =>
          match truncPreview line with
          | some pre =>
            parseLoop rest (n + 1) msgs
              ({ line_num := n + 1, parse_error := err, preview := pre } :: diags)
          | none =>
            Except.error (CallFailure.panicked
              ("byte index " ++ toString (min (utf8Len line.data) 100) ++
               " is not a char boundary"))

/-- fn `parse_claude_session`, from after the successful `File::open`:
the stream of line reads in file order is the function's input. -/
def parse_claude_session (lines : List (Except String String)) :
    Except CallFailure (List ClaudeMessage × List Diag) :=
  parseLoop lines 0 [] []

-- ============================================
-- get_session_summary (streaming aggregation)
-- ============================================

/-- Two's-complement wrap of an integer into the i32 range
[-2^31, 2^31), the release-build result of `i32` addition. -/
def wrap32 (n : Int) : Int :=
  (n + 2 ^ 31) % 2 ^ 32 - 2 ^ 31

/-- The mutable locals of fn `get_session_summary`.  The two token totals
are `i32` in the source; they are held here as `Int` values within the
i32 range, every addition to them going through `wrap32`. -/
structure SummaryState where
  session_id : String
  message_count : Nat
  user_count : Nat
  assistant_count : Nat
  first_timestamp : Option String
  last_timestamp : Option String
  total_input_tokens : Int
  total_output_tokens : Int
  has_thinking_flag : Bool
  has_tool_use_flag : Bool
  cwd : Option String

/-- Initial values of the summary locals. -/
def initState : SummaryState :=
  { session_id := "unknown", message_count := 0, user_count := 0,
    assistant_count := 0, first_timestamp := none, last_timestamp := none,
    total_input_tokens := 0, total_output_tokens := 0,
    has_thinking_flag := false, has_tool_use_flag := false, cwd := none }

/-- Update session ID (last write wins). -/
def stepSession (st : SummaryState) (entry : RawLogEntry) : SummaryState :=
  match entry.session_id with
  | some sid => { st with session_id := sid }
  | none => st

/-- Capture cwd once, from the first record carrying one. -/
def stepCwd (st : SummaryState) (entry : RawLogEntry) : SummaryState :=
  if st.cwd = none then
    match entry.cwd with
    | some c => { st with cwd := some c }
    | none => st
  else st

/-- Count messages, track token usage and feature flags. -/
def stepCounts (st : SummaryState) (entry : RawLogEntry) : SummaryState :=
  if entry.entry_type = "user" then
    { st with user_count := st.user_count + 1, message_count := st.message_count + 1 }
  else if entry.entry_type = "assistant" then
    let st1 := { st with assistant_count := st.assistant_count + 1,
                         message_count := st.message_count + 1 }
    match entry.message with
    | some message =>
      let st2 :=
        match message.usage with
        | some usage =>
          { st1 with
            total_input_tokens := wrap32 (st1.total_input_tokens + usage.input_tokens),
            total_output_tokens := wrap32 (st1.total_output_tokens + usage.output_tokens) }
        | none => st1
      let st3 := if hasThinking message.content then { st2 with has_thinking_flag := true } else st2
      if hasToolUse message.content then { st3 with has_tool_use_flag := true } else st3
    | none => st1
  else st

/-- Track timestamps: first is set once, last is overwritten. -/
def stepTimestamps (st : SummaryState) (entry : RawLogEntry) : SummaryState :=
  match entry.timestamp with
  | some ts =>
    let st1 := if st.first_timestamp = none then { st with first_timestamp := some ts } else st
    { st1 with last_timestamp := some ts }
  | none => st

/-- The loop body of fn `get_session_summary` for one decoded record, in
source order: session id, cwd, counting, timestamps. -/
def summaryStep (st : SummaryState) (entry : RawLogEntry) : SummaryState :=
  stepTimestamps (stepCounts (stepCwd (stepSession st entry) entry) entry) entry

/-- The line loop of fn `get_session_summary`: a line-read error is
silently skipped (`if let Ok(line) = line`), as are blank lines and
lines that fail to decode. -/
def summaryLoop : List (Except String String) → SummaryState → SummaryState
  | [], st => st
  | l :: rest, st =>
    match l with
    | Except.error _ => summaryLoop rest st
    | Except.ok line =>
      if isBlank line then summaryLoop rest st
      else
        match parse_jsonl_line line with
        | Except.ok entry => summaryLoop rest (summaryStep st entry)
        | Except.error _ => summaryLoop rest st

/-- Build the returned ClaudeSession from the final loop state (token
totals are exposed only when strictly positive). -/
def finalizeSummary (file_path : String) (st : SummaryState) : ClaudeSession :=
  { session_id := st.session_id,
    file_path := file_path,
    message_count := st.message_count,
    user_message_count := st.user_count,
    assistant_message_count := st.assistant_count,
    first_timestamp := st.first_timestamp,
    last_timestamp := st.last_timestamp,
    total_input_tokens := if st.total_input_tokens > 0 then some st.total_input_tokens else none,
    total_output_tokens := if st.total_output_tokens > 0 then some st.total_output_tokens else none,
    has_thinking := st.has_thinking_flag,
    has_tool_use := st.has_tool_use_flag,
    cwd := st.cwd }

/-- fn `get_session_summary`, from after the successful `File::open`. -/
def get_session_summary (file_path : String) (lines : List (Except String String)) :
    ClaudeSession :=
  finalizeSummary file_path (summaryLoop lines initState)

/-- The record decoded from one line read, if any: read errors, blank
lines and undecodable lines contribute nothing. -/
def decodedLine (l : Except String String) : Option RawLogEntry :=
  match l with
  | Except.error _ => none
  | Except.ok line =>
    if isBlank line then none
    else
      match parse_jsonl_line line with
      | Except.ok entry => some entry
      | Except.error _ => none

/-- The decoded record stream of a line-read stream. -/
def decodedEntries (lines : List (Except String String)) : List RawLogEntry :=
  lines.filterMap decodedLine

-- ============================================
-- Spec-side definitions (stated from the specification's wording, to be
-- compared against the embedded source functions)
-- ============================================

/-- What one content item contributes to the merged text, per the spec:
`Text` verbatim, `Thinking` behind the fixed literal marker, nothing for
the other variants. -/
def renderedItem : ContentItem → Option String
  | ContentItem.text t => some t
  | ContentItem.thinking th _ => some ("[Thinking]\n" ++ th)
  | ContentItem.toolUse _ _ _ => none
  | ContentItem.toolResult _ _ _ => none
  | ContentItem.image _ => none

/-- Whether some item of the list contributes merged text. -/
def hasRenderable (items : List ContentItem) : Bool :=
  items.any (fun i => (renderedItem i).isSome)

/-- The merged content as the spec words it: contributing items in
content-array order, separated by a blank line. -/
def mergedContentSpec : List ContentItem → String
  | [] => ""
  | item :: rest =>
    match renderedItem item with
    | none => mergedContentSpec rest
    | some s =>
      if hasRenderable rest then s ++ "\n\n" ++ mergedContentSpec rest
      else s

/-- Whether a record is counted as a message: entry_type "user" or
"assistant". -/
def isCounted (e : RawLogEntry) : Bool :=
  e.entry_type = "user" || e.entry_type = "assistant"

/-- The input-token contribution of one record to the running total:
only assistant records with a usage block contribute. -/
def inputContribution (e : RawLogEntry) : Int :=
  if e.entry_type = "assistant" then
    match e.message with
    | some m =>
      match m.usage with
      | some u => u.input_tokens
      | none => 0
    | none => 0
  else 0

/-- The output-token contribution of one record to the running total. -/
def outputContribution (e : RawLogEntry) : Int :=
  if e.entry_type = "assistant" then
    match e.message with
    | some m =>
      match m.usage with
      | some u => u.output_tokens
      | none => 0
    | none => 0
  else 0

/-- Whether a record performs the `+=` on the token totals at all: an
assistant record whose message carries a usage block. -/
def addsUsage (e : RawLogEntry) : Bool :=
  e.entry_type = "assistant" &&
    (match e.message with
     | some m => m.usage.isSome
     | none => false)

/-- One i32 accumulation step of the running input-token total: only an
assistant record with a usage block adds (with wrapping i32 addition);
every other record leaves the total untouched. -/
def accInput (acc : Int) (e : RawLogEntry) : Int :=
  if addsUsage e then wrap32 (acc + inputContribution e) else acc

/-- One i32 accumulation step of the running output-token total. -/
def accOutput (acc : Int) (e : RawLogEntry) : Int :=
  if addsUsage e then wrap32 (acc + outputContribution e) else acc

/-- The accumulated input-token total of a decoded record stream: the
left-to-right wrapping i32 sum of the assistant-with-usage
contributions, from zero. -/
def specInputTokens (entries : List RawLogEntry) : Int :=
  entries.foldl accInput 0

/-- The accumulated output-token total of a decoded record stream. -/
def specOutputTokens (entries : List RawLogEntry) : Int :=
  entries.foldl accOutput 0

/-- Whether one record turns the session's has_thinking flag on: an
assistant record whose message content contains a thinking item. -/
def thinkContribution (e : RawLogEntry) : Bool :=
  e.entry_type = "assistant" &&
    (match e.message with
     | some m => hasThinking m.content
     | none => false)

/-- Whether one record turns the session's has_tool_use flag on. -/
def toolContribution (e : RawLogEntry) : Bool :=
  e.entry_type = "assistant" &&
    (match e.message with
     | some m => hasToolUse m.content
     | none => false)

/-- Per-record increment of message_count. -/
def msgInc (e : RawLogEntry) : Nat :=
  if isCounted e then 1 else 0

/-- Per-record increment of user_message_count. -/
def userInc (e : RawLogEntry) : Nat :=
  if e.entry_type = "user" then 1 else 0

/-- Per-record increment of assistant_message_count. -/
def assistInc (e : RawLogEntry) : Nat :=
  if e.entry_type = "assistant" then 1 else 0

/-- A line that the per-line tier of `parse_claude_session` handles
without a terminal failure: blank, decodable, or with a diagnostic
preview slice that does not panic. -/
def lineHandledOk (s : String) : Bool :=
  isBlank s ||
    (match parse_jsonl_line s with
     | Except.ok _ => true
     | Except.error _ => (truncPreview s).isSome)

/-- First-some choice on options (the shape of "set once" updates). -/
def optOr (a b : Option α) : Option α :=
  match a with
  | some x => some x
  | none => b

-- ============================================
-- Helper lemmas
-- ============================================

theorem optOr_none_left (b : Option α) : optOr none b = b := rfl

theorem optOr_some_left (x : α) (b : Option α) : optOr (some x) b = some x := rfl

theorem optOr_none_right (a : Option α) : optOr a none = a := by
  cases a <;> rfl

theorem optOr_assoc (a b c : Option α) : optOr (optOr a b) c = optOr a (optOr b c) := by
  cases a <;> rfl

theorem getLast?_cons_getD (y : α) (ys : List α) (d : α) :
    ((y :: ys).getLast?).getD d = (ys.getLast?).getD y := by
  induction ys generalizing y with
  | nil => rfl
  | cons z zs ih =>
    rw [List.getLast?_cons_cons]
    cases zs with
    | nil => rfl
    | cons w ws => rw [List.getLast?_cons_cons] at *; exact ih z

theorem getLast?_cons_optOr (t : α) (ys : List α) :
    (t :: ys).getLast? = optOr ys.getLast? (some t) := by
  cases ys with
  | nil => rfl
  | cons z zs =>
    rw [List.getLast?_cons_cons]
    cases h : (z :: zs).getLast? with
    | none => simp [List.getLast?] at h
    | some w => rfl

theorem stepSession_eq (st : SummaryState) (e : RawLogEntry) :
    stepSession st e = { st with session_id := e.session_id.getD st.session_id } := by
  cases h : e.session_id <;> simp [stepSession, h]

theorem stepCwd_eq (st : SummaryState) (e : RawLogEntry) :
    stepCwd st e = { st with cwd := optOr st.cwd e.cwd } := by
  cases h : st.cwd <;> cases h2 : e.cwd <;> simp [stepCwd, h, h2, optOr] <;> rw [← h]

theorem stepCounts_eq (st : SummaryState) (e : RawLogEntry) :
    stepCounts st e =
      { st with
        user_count := st.user_count + userInc e,
        assistant_count := st.assistant_count + assistInc e,
        message_count := st.message_count + msgInc e,
        total_input_tokens := accInput st.total_input_tokens e,
        total_output_tokens := accOutput st.total_output_tokens e,
        has_thinking_flag := st.has_thinking_flag || thinkContribution e,
        has_tool_use_flag := st.has_tool_use_flag || toolContribution e } := by
  by_cases hu : e.entry_type = "user"
  · have ha : ¬ e.entry_type = "assistant" := by rw [hu]; decide
    simp [stepCounts, userInc, assistInc, msgInc, isCounted, inputContribution,
          outputContribution, thinkContribution, toolContribution,
          accInput, accOutput, addsUsage, hu, ha]
  · by_cases ha : e.entry_type = "assistant"
    · cases hm : e.message with
      | none =>
        simp [stepCounts, userInc, assistInc, msgInc, isCounted, inputContribution,
              outputContribution, thinkContribution, toolContribution,
              accInput, accOutput, addsUsage, hu, ha, hm]
      | some m =>
        cases hus : m.usage with
        | none =>
          by_cases hth : hasThinking m.content <;>
          by_cases htu : hasToolUse m.content <;>
          simp [stepCounts, userInc, assistInc, msgInc, isCounted, inputContribution,
                outputContribution, thinkContribution, toolContribution,
                accInput, accOutput, addsUsage, hu, ha, hm, hus, hth, htu]
        | some u =>
          by_cases hth : hasThinking m.content <;>
          by_cases htu : hasToolUse m.content <;>
          simp [stepCounts, userInc, assistInc, msgInc, isCounted, inputContribution,
                outputContribution, thinkContribution, toolContribution,
                accInput, accOutput, addsUsage, hu, ha, hm, hus, hth, htu]
    · simp [stepCounts, userInc, assistInc, msgInc, isCounted, inputContribution,
            outputContribution, thinkContribution, toolContribution,
            accInput, accOutput, addsUsage, hu, ha]

theorem stepTimestamps_eq (st : SummaryState) (e : RawLogEntry) :
    stepTimestamps st e =
      { st with
        first_timestamp := optOr st.first_timestamp e.timestamp,
        last_timestamp := optOr e.timestamp st.last_timestamp } := by
  cases h : e.timestamp <;> cases hf : st.first_timestamp <;>
    simp [stepTimestamps, h, hf, optOr] <;> rw [← hf]

theorem summaryStep_eq (st : SummaryState) (e : RawLogEntry) :
    summaryStep st e =
      { st with
        session_id := e.session_id.getD st.session_id,
        cwd := optOr st.cwd e.cwd,
        user_count := st.user_count + userInc e,
        assistant_count := st.assistant_count + assistInc e,
        message_count := st.message_count + msgInc e,
        total_input_tokens := accInput st.total_input_tokens e,
        total_output_tokens := accOutput st.total_output_tokens e,
        has_thinking_flag := st.has_thinking_flag || thinkContribution e,
        has_tool_use_flag := st.has_tool_use_flag || toolContribution e,
        first_timestamp := optOr st.first_timestamp e.timestamp,
        last_timestamp := optOr e.timestamp st.last_timestamp } := by
  unfold summaryStep
  rw [stepSession_eq, stepCwd_eq, stepCounts_eq, stepTimestamps_eq]

theorem foldl_message_count (entries : List RawLogEntry) (st : SummaryState) :
    (entries.foldl summaryStep st).message_count =
      st.message_count + (entries.filter isCounted).length := by
  induction entries generalizing st with
  | nil => simp
  | cons e rest ih =>
    rw [List.foldl_cons, ih, summaryStep_eq]
    by_cases h : isCounted e <;> simp [msgInc, h] <;> omega

theorem foldl_user_count (entries : List RawLogEntry) (st : SummaryState) :
    (entries.foldl summaryStep st).user_count =
      st.user_count + (entries.filter (fun e => e.entry_type = "user")).length := by
  induction entries generalizing st with
  | nil => simp
  | cons e rest ih =>
    rw [List.foldl_cons, ih, summaryStep_eq]
    by_cases h : e.entry_type = "user" <;> simp [userInc, h] <;> omega

theorem foldl_assistant_count (entries : List RawLogEntry) (st : SummaryState) :
    (entries.foldl summaryStep st).assistant_count =
      st.assistant_count + (entries.filter (fun e => e.entry_type = "assistant")).length := by
  induction entries generalizing st with
  | nil => simp
  | cons e rest ih =>
    rw [List.foldl_cons, ih, summaryStep_eq]
    by_cases h : e.entry_type = "assistant" <;> simp [assistInc, h] <;> omega

theorem foldl_total_input (entries : List RawLogEntry) (st : SummaryState) :
    (entries.foldl summaryStep st).total_input_tokens =
      entries.foldl accInput st.total_input_tokens := by
  induction entries generalizing st with
  | nil => rfl
  | cons e rest ih =>
    rw [List.foldl_cons, List.foldl_cons, ih, summaryStep_eq]

theorem foldl_total_output (entries : List RawLogEntry) (st : SummaryState) :
    (entries.foldl summaryStep st).total_output_tokens =
      entries.foldl accOutput st.total_output_tokens := by
  induction entries generalizing st with
  | nil => rfl
  | cons e rest ih =>
    rw [List.foldl_cons, List.foldl_cons, ih, summaryStep_eq]

theorem foldl_think_flag (entries : List RawLogEntry) (st : SummaryState) :
    (entries.foldl summaryStep st).has_thinking_flag =
      (st.has_thinking_flag || entries.any thinkContribution) := by
  induction entries generalizing st with
  | nil => simp
  | cons e rest ih =>
    rw [List.foldl_cons, ih, summaryStep_eq]
    simp [Bool.or_assoc]

theorem foldl_tool_flag (entries : List RawLogEntry) (st : SummaryState) :
    (entries.foldl summaryStep st).has_tool_use_flag =
      (st.has_tool_use_flag || entries.any toolContribution) := by
  induction entries generalizing st with
  | nil => simp
  | cons e rest ih =>
    rw [List.foldl_cons, ih, summaryStep_eq]
    simp [Bool.or_assoc]

theorem foldl_session_id (entries : List RawLogEntry) (st : SummaryState) :
    (entries.foldl summaryStep st).session_id =
      ((entries.filterMap RawLogEntry.session_id).getLast?).getD st.session_id := by
  induction entries generalizing st with
  | nil => simp
  | cons e rest ih =>
    rw [List.foldl_cons, ih, summaryStep_eq]
    cases h : e.session_id with
    | none => simp [List.filterMap_cons, h]
    | some sid => simp [List.filterMap_cons, h, getLast?_cons_getD]

theorem foldl_first_timestamp (entries : List RawLogEntry) (st : SummaryState) :
    (entries.foldl summaryStep st).first_timestamp =
      optOr st.first_timestamp (entries.filterMap RawLogEntry.timestamp).head? := by
  induction entries generalizing st with
  | nil =>
    simp only [List.foldl_nil, List.filterMap_nil, List.head?_nil, optOr_none_right]
  | cons e rest ih =>
    rw [List.foldl_cons, ih, summaryStep_eq]
    cases h : e.timestamp with
    | none => simp only [List.filterMap_cons, h, optOr_none_right]
    | some ts =>
      simp only [List.filterMap_cons, h, List.head?_cons, optOr_assoc, optOr_some_left]

theorem foldl_last_timestamp (entries : List RawLogEntry) (st : SummaryState) :
    (entries.foldl summaryStep st).last_timestamp =
      optOr (entries.filterMap RawLogEntry.timestamp).getLast? st.last_timestamp := by
  induction entries generalizing st with
  | nil =>
    simp only [List.foldl_nil, List.filterMap_nil, List.getLast?_nil, optOr_none_left]
  | cons e rest ih =>
    rw [List.foldl_cons, ih, summaryStep_eq]
    cases h : e.timestamp with
    | none => simp only [List.filterMap_cons, h, optOr_none_left]
    | some ts =>
      simp only [List.filterMap_cons, h, getLast?_cons_optOr, optOr_assoc, optOr_some_left]

theorem summaryLoop_eq_foldl (lines : List (Except String String)) (st : SummaryState) :
    summaryLoop lines st = (decodedEntries lines).foldl summaryStep st := by
  induction lines generalizing st with
  | nil => rfl
  | cons l rest ih =>
    cases l with
    | error e => simp [summaryLoop, decodedEntries, decodedLine, List.filterMap_cons, ih]
    | ok line =>
      by_cases hb : isBlank line
      · simp [summaryLoop, decodedEntries, decodedLine, List.filterMap_cons, hb, ih]
      · cases hp : parse_jsonl_line line with
        | ok entry =>
          simp [summaryLoop, decodedEntries, decodedLine, List.filterMap_cons, hb, hp, ih]
        | error err =>
          simp [summaryLoop, decodedEntries, decodedLine, List.filterMap_cons, hb, hp, ih]

theorem summaryLoop_skip_read_error (pre : List (Except String String))
    (e : String) (rest : List (Except String String)) (st : SummaryState) :
    summaryLoop (pre ++ Except.error e :: rest) st = summaryLoop (pre ++ rest) st := by
  induction pre generalizing st with
  | nil => rfl
  | cons l pre ih =>
    cases l with
    | error e2 => simpa [summaryLoop] using ih st
    | ok line =>
      by_cases hb : isBlank line
      · simpa [summaryLoop, hb] using ih st
      · cases hp : parse_jsonl_line line with
        | ok entry => simpa [summaryLoop, hb, hp] using ih (summaryStep st entry)
        | error err => simpa [summaryLoop, hb, hp] using ih st

theorem parseLoop_read_error (pre : List String) (e : String)
    (rest : List (Except String String)) (n : Nat)
    (msgs : List ClaudeMessage) (diags : List Diag)
    (h : ∀ s ∈ pre, lineHandledOk s = true) :
    parseLoop (pre.map Except.ok ++ Except.error e :: rest) n msgs diags =
      Except.error (CallFailure.ioError
        ("Error reading line " ++ toString (n + pre.length + 1) ++ ": " ++ e)) := by
  induction pre generalizing n msgs diags with
  | nil => simp [parseLoop]
  | cons s pre ih =>
    have hs : lineHandledOk s = true := h s (List.mem_cons_self s pre)
    have hpre : ∀ t ∈ pre, lineHandledOk t = true :=
      fun t ht => h t (List.mem_cons_of_mem s ht)
    have harith : n + 1 + pre.length + 1 = n + (s :: pre).length + 1 := by
      simp [List.length_cons]; omega
    by_cases hb : isBlank s
    · rw [List.map_cons, List.cons_append]
      show parseLoop (Except.ok s :: _) n msgs diags = _
      rw [show parseLoop (Except.ok s :: (pre.map Except.ok ++ Except.error e :: rest))
            n msgs diags =
          parseLoop (pre.map Except.ok ++ Except.error e :: rest) (n + 1) msgs diags by
        simp [parseLoop, hb]]
      rw [ih (n + 1) msgs diags hpre, harith]
    · cases hp : parse_jsonl_line s with
      | ok entry =>
        cases hm : entry_to_message entry with
        | some m =>
          rw [List.map_cons, List.cons_append]
          rw [show parseLoop (Except.ok s :: (pre.map Except.ok ++ Except.error e :: rest))
                n msgs diags =
              parseLoop (pre.map Except.ok ++ Except.error e :: rest) (n + 1)
                (m :: msgs) diags by
            simp [parseLoop, hb, hp, hm]]
          rw [ih (n + 1) (m :: msgs) diags hpre, harith]
        | none =>
          rw [List.map_cons, List.cons_append]
          rw [show parseLoop (Except.ok s :: (pre.map Except.ok ++ Except.error e :: rest))
                n msgs diags =
              parseLoop (pre.map Except.ok ++ Except.error e :: rest) (n + 1) msgs diags by
            simp [parseLoop, hb, hp, hm]]
          rw [ih (n + 1) msgs diags hpre, harith]
      | error err =>
        have hpv : (truncPreview s).isSome = true := by
          have := hs
          simp [lineHandledOk, hb, hp] at this
          exact this
        obtain ⟨pv, hpv2⟩ := Option.isSome_iff_exists.mp hpv
        rw [List.map_cons, List.cons_append]
        rw [show parseLoop (Except.ok s :: (pre.map Except.ok ++ Except.error e :: rest))
              n msgs diags =
            parseLoop (pre.map Except.ok ++ Except.error e :: rest) (n + 1) msgs
              ({ line_num := n + 1, parse_error := err, preview := pv } :: diags) by
          simp [parseLoop, hb, hp, hpv2]]
        rw [ih (n + 1) msgs _ hpre, harith]

theorem extract_eq_filterMap (items : List ContentItem) :
    extract_text_content items = joinSep "\n\n" (items.filterMap renderedItem) := by
  unfold extract_text_content
  congr 1
  congr 1
  funext i
  cases i <;> rfl

theorem joinSep_cons_ne_nil (sep x : String) (ys : List String) (h : ys ≠ []) :
    joinSep sep (x :: ys) = x ++ sep ++ joinSep sep ys := by
  cases ys with
  | nil => exact absurd rfl h
  | cons y ys2 => rfl

theorem hasRenderable_false_iff (items : List ContentItem) :
    hasRenderable items = false ↔ items.filterMap renderedItem = [] := by
  induction items with
  | nil => simp [hasRenderable]
  | cons i rest ih =>
    cases h : renderedItem i with
    | none => simpa [hasRenderable, List.filterMap_cons, h] using ih
    | some s => simp [hasRenderable, List.filterMap_cons, h]

theorem extract_eq_mergedSpec (items : List ContentItem) :
    extract_text_content items = mergedContentSpec items := by
  induction items with
  | nil => rfl
  | cons i rest ih =>
    rw [extract_eq_filterMap] at *
    unfold mergedContentSpec
    cases h : renderedItem i with
    | none => rw [List.filterMap_cons, h, ih]
    | some s =>
      rw [List.filterMap_cons, h]
      show joinSep "\n\n" (s :: List.filterMap renderedItem rest) =
        if hasRenderable rest = true then s ++ "\n\n" ++ mergedContentSpec rest else s
      by_cases hr : hasRenderable rest = true
      · have hne : rest.filterMap renderedItem ≠ [] := by
          intro hnil
          rw [(hasRenderable_false_iff rest).mpr hnil] at hr
          exact Bool.noConfusion hr
        rw [joinSep_cons_ne_nil _ _ _ hne, ih, if_pos hr]
      · have hb : hasRenderable rest = false := by
          cases hh : hasRenderable rest
          · rfl
          · exact absurd hh hr
        rw [(hasRenderable_false_iff rest).mp hb]
        rw [if_neg hr]
        rfl

theorem decodeContentItems_error_of_mem {vs : List Json} {v : Json}
    (hmem : v ∈ vs) (herr : ∃ e, decodeContentItem v = Except.error e) :
    ∃ e2, decodeContentItems vs = Except.error e2 := by
  induction vs with
  | nil => cases hmem
  | cons w ws ih =>
    cases hd : decodeContentItem w with
    | error e => exact ⟨e, by simp [decodeContentItems, hd]⟩
    | ok item =>
      rcases List.mem_cons.mp hmem with h | h
      · obtain ⟨e, he⟩ := herr
        rw [h] at he
        rw [he] at hd
        exact Except.noConfusion hd
      · obtain ⟨e2, he2⟩ := ih h
        exact ⟨e2, by simp [decodeContentItems, hd, he2]⟩

theorem entry_to_message_none_of_type {e : RawLogEntry}
    (h1 : e.entry_type ≠ "user") (h2 : e.entry_type ≠ "assistant") :
    entry_to_message e = none := by
  unfold entry_to_message
  rw [if_pos ⟨h1, h2⟩]

theorem entry_to_message_assistant {e : RawLogEntry} {m : MessageObject}
    (h1 : e.entry_type = "assistant") (h2 : e.message = some m) :
    ∃ msg, entry_to_message e = some msg ∧
      msg.has_thinking = hasThinking m.content ∧
      msg.content = extract_text_content m.content := by
  unfold entry_to_message
  have hneg : ¬(e.entry_type ≠ "user" ∧ e.entry_type ≠ "assistant") := by
    intro hc
    exact hc.2 h1
  rw [if_neg hneg, h2]
  exact ⟨_, rfl, rfl, rfl⟩

theorem isSome_getLast?_cons (y : α) (ys : List α) :
    ((y :: ys).getLast?).isSome = true := by
  rw [getLast?_cons_optOr]
  cases ys.getLast? <;> rfl

-- ============================================
-- Concrete sample inputs
-- ============================================

/-- A well-formed user line (scenario A of the spec). -/
def userLine : String :=
  "\x7b\"type\":\"user\",\"uuid\":\"1\",\"sessionId\":\"s1\",\"timestamp\":\"t1\",\"message\":\x7b\"role\":\"user\",\"content\":\"hi\"\x7d\x7d"

/-- A well-formed assistant line with thinking content and token usage. -/
def assistantLine : String :=
  "\x7b\"type\":\"assistant\",\"uuid\":\"2\",\"sessionId\":\"s2\",\"timestamp\":\"t2\",\"message\":\x7b\"role\":\"assistant\",\"content\":[\x7b\"type\":\"thinking\",\"thinking\":\"x\"\x7d,\x7b\"type\":\"text\",\"text\":\"y\"\x7d],\"usage\":\x7b\"input_tokens\":10,\"output_tokens\":5\x7d\x7d\x7d"

/-- A non-JSON line of 101 UTF-8 bytes whose byte 100 falls inside the
two-byte encoding of the final character. -/
def badLine : String := String.mk (List.replicate 99 'x') ++ "é"

/-- A record whose entry_type is neither "user" nor "assistant". -/
def otherEntry : RawLogEntry :=
  { entry_type := "summary", uuid := none, parent_uuid := none, session_id := none,
    timestamp := none, message := none, summary := none, leaf_uuid := none,
    is_sidechain := none, user_type := none, cwd := none, version := none }

/-- The token usage decoded from `assistantLine`. -/
def sampleUsage : TokenUsage :=
  { input_tokens := 10, output_tokens := 5,
    cache_creation_input_tokens := none, cache_read_input_tokens := none }

/-- The content decoded from `assistantLine`. -/
def sampleContent : List ContentItem :=
  [ContentItem.thinking "x" none, ContentItem.text "y"]

/-- The message object decoded from `assistantLine`. -/
def sampleMessage : MessageObject :=
  { role := "assistant", content := sampleContent, model := none, id := none,
    stop_reason := none, usage := some sampleUsage }

/-- The record decoded from `assistantLine`. -/
def sampleAssistantEntry : RawLogEntry :=
  { entry_type := "assistant", uuid := some "2", parent_uuid := none,
    session_id := some "s2", timestamp := some "t2", message := some sampleMessage,
    summary := none, leaf_uuid := none, is_sidechain := none, user_type := none,
    cwd := none, version := none }

-- ============================================
-- Claim theorems
-- ============================================

/-- C1 counterexample: the original claim says a line-read I/O failure
aborts BOTH entry operations with a typed failure and no partial result;
but `get_session_summary` on a stream whose first line read fails still
returns a full aggregate built from the remaining readable lines (here a
partial result counting the one later user line). -/
theorem claim_C1_counterexample :
    get_session_summary "f" [Except.error "boom", Except.ok userLine] =
      { session_id := "s1", file_path := "f", message_count := 1,
        user_message_count := 1, assistant_message_count := 0,
        first_timestamp := some "t1", last_timestamp := some "t1",
        total_input_tokens := none, total_output_tokens := none,
        has_thinking := false, has_tool_use := false, cwd := none } := rfl

/-- C1 (amended): `parse_claude_session` aborts on the first line-read
error with a typed failure carrying the formatted line number and the
original cause, returning no partial result; `get_session_summary`,
however, silently skips a line-read error and aggregates the remaining
readable lines — only a file-open failure is terminal for it. -/
theorem claim_C1_amended :
    (∀ (pre : List String) (e : String) (rest : List (Except String String)),
      (∀ s ∈ pre, lineHandledOk s = true) →
      parse_claude_session (pre.map Except.ok ++ Except.error e :: rest) =
        Except.error (CallFailure.ioError
          ("Error reading line " ++ toString (pre.length + 1) ++ ": " ++ e))) ∧
    (∀ (fp : String) (pre : List (Except String String)) (e : String)
       (rest : List (Except String String)),
      get_session_summary fp (pre ++ Except.error e :: rest) =
        get_session_summary fp (pre ++ rest)) := by
  constructor
  · intro pre e rest h
    have hx := parseLoop_read_error pre e rest 0 [] [] h
    unfold parse_claude_session
    simpa using hx
  · intro fp pre e rest
    unfold get_session_summary
    rw [summaryLoop_skip_read_error]

/-- C1 witness: instantiation of the amended claim at concrete streams. -/
theorem claim_C1_witness :
    parse_claude_session [Except.error "disk full"] =
      Except.error (CallFailure.ioError "Error reading line 1: disk full") ∧
    get_session_summary "f" [Except.error "boom", Except.ok userLine] =
      get_session_summary "f" [Except.ok userLine] := by
  constructor
  · have hx := claim_C1_amended.1 [] "disk full" [] (by intro s hs; cases hs)
    simpa using hx
  · exact claim_C1_amended.2 "f" [] "boom" [Except.ok userLine]

/-- C2 (code bug): a non-JSON line of 101 bytes whose byte 100 is inside
a multi-byte character makes the per-line diagnostic slice
`&line[..line.len().min(100)]` panic, so the per-line tier escalates to
a terminal failure of the whole call, contrary to the spec's
"must never escalate to a terminal failure". -/
theorem claim_C2_bug :
    parse_claude_session [Except.ok badLine] =
      Except.error (CallFailure.panicked "byte index 100 is not a char boundary") := rfl

/-- C3: a plain-string content field decodes to exactly one `Text` item
holding the string verbatim, and the projected merged content is that
string exactly. -/
theorem claim_C3 (s : String) :
    deserialize_content (Json.str s) = Except.ok [ContentItem.text s] ∧
    extract_text_content [ContentItem.text s] = s :=
  ⟨rfl, rfl⟩

/-- C4: the merged content is exactly the `Text` and `Thinking` items in
content-array order joined by a blank line, `Thinking` items behind the
fixed literal marker, and `ToolUse`/`ToolResult`/`Image` items contribute
nothing; scenario B is included concretely. -/
theorem claim_C4 :
    (∀ items, extract_text_content items = mergedContentSpec items) ∧
    (∀ items id name input,
      extract_text_content (ContentItem.toolUse id name input :: items) =
        extract_text_content items) ∧
    (∀ items tid c ie,
      extract_text_content (ContentItem.toolResult tid c ie :: items) =
        extract_text_content items) ∧
    (∀ items src,
      extract_text_content (ContentItem.image src :: items) =
        extract_text_content items) ∧
    extract_text_content [ContentItem.thinking "x" none, ContentItem.text "y"] =
      "[Thinking]\nx\n\ny" := by
  refine ⟨extract_eq_mergedSpec, ?_, ?_, ?_, rfl⟩
  · intro items id name input
    rfl
  · intro items tid c ie
    rfl
  · intro items src
    rfl

/-- C5: in a content array, one element matching no variant fails the
whole array decode; and any content shape other than string or array
(object, number, null, boolean) fails to decode. -/
theorem claim_C5 :
    (∀ (vs : List Json) (v : Json), v ∈ vs →
      (∃ e, decodeContentItem v = Except.error e) →
      ∃ e2, deserialize_content (Json.arr vs) = Except.error e2) ∧
    (∀ b, ∃ e, deserialize_content (Json.bool b) = Except.error e) ∧
    (∃ e, deserialize_content Json.null = Except.error e) ∧
    (∀ n isInt, ∃ e, deserialize_content (Json.num n isInt) = Except.error e) ∧
    (∀ fields, ∃ e, deserialize_content (Json.obj fields) = Except.error e) := by
  refine ⟨?_, fun b => ⟨_, rfl⟩, ⟨_, rfl⟩, fun n isInt => ⟨_, rfl⟩, fun fields => ⟨_, rfl⟩⟩
  intro vs v hmem herr
  exact decodeContentItems_error_of_mem hmem herr

/-- C5 witness: a one-element array whose element (a bare null) matches
no variant fails the whole content decode. -/
theorem claim_C5_witness :
    Json.null ∈ [Json.null] ∧
    (∃ e, decodeContentItem Json.null = Except.error e) ∧
    (∃ e2, deserialize_content (Json.arr [Json.null]) = Except.error e2) :=
  ⟨List.mem_singleton.mpr rfl, ⟨_, rfl⟩,
    claim_C5.1 [Json.null] Json.null (List.mem_singleton.mpr rfl) ⟨_, rfl⟩⟩

/-- C6: the running token totals accumulate (with the source's wrapping
i32 addition) exactly the per-record contributions of assistant records
carrying a usage block — every other record leaves them untouched — and
each total is present in the returned session iff its accumulated i32
value is strictly positive. -/
theorem claim_C6 (fp : String) (lines : List (Except String String)) :
    (get_session_summary fp lines).total_input_tokens =
      (if specInputTokens (decodedEntries lines) > 0
       then some (specInputTokens (decodedEntries lines)) else none) ∧
    (get_session_summary fp lines).total_output_tokens =
      (if specOutputTokens (decodedEntries lines) > 0
       then some (specOutputTokens (decodedEntries lines)) else none) := by
  unfold get_session_summary finalizeSummary
  rw [summaryLoop_eq_foldl]
  constructor
  · simp [foldl_total_input, initState, specInputTokens]
  · simp [foldl_total_output, initState, specOutputTokens]

/-- C7: the returned session_id is the last non-absent session_id of the
decoded record stream, and the literal "unknown" when there is none. -/
theorem claim_C7 (fp : String) (lines : List (Except String String)) :
    (get_session_summary fp lines).session_id =
      (((decodedEntries lines).filterMap RawLogEntry.session_id).getLast?).getD
        "unknown" := by
  unfold get_session_summary finalizeSummary
  rw [summaryLoop_eq_foldl]
  simp [foldl_session_id, initState]

/-- C8: user records increment user_message_count and message_count,
assistant records increment assistant_message_count and message_count,
and a record of any other entry_type never projects to a message and
leaves message_count unchanged. -/
theorem claim_C8 :
    (∀ (fp : String) (lines : List (Except String String)),
      (get_session_summary fp lines).message_count =
        ((decodedEntries lines).filter isCounted).length ∧
      (get_session_summary fp lines).user_message_count =
        ((decodedEntries lines).filter (fun e => e.entry_type = "user")).length ∧
      (get_session_summary fp lines).assistant_message_count =
        ((decodedEntries lines).filter (fun e => e.entry_type = "assistant")).length) ∧
    (∀ e : RawLogEntry, e.entry_type ≠ "user" → e.entry_type ≠ "assistant" →
      entry_to_message e = none ∧
      ∀ st, (summaryStep st e).message_count = st.message_count) := by
  constructor
  · intro fp lines
    unfold get_session_summary finalizeSummary
    rw [summaryLoop_eq_foldl]
    refine ⟨?_, ?_, ?_⟩
    · simp [foldl_message_count, initState]
    · simp [foldl_user_count, initState]
    · simp [foldl_assistant_count, initState]
  · intro e h1 h2
    refine ⟨entry_to_message_none_of_type h1 h2, ?_⟩
    intro st
    rw [summaryStep_eq]
    simp [msgInc, isCounted, h1, h2]

/-- C8 witness: a "summary" record neither projects to a message nor
changes message_count. -/
theorem claim_C8_witness :
    entry_to_message otherEntry = none ∧
    (summaryStep initState otherEntry).message_count = initState.message_count :=
  ⟨(claim_C8.2 otherEntry (by decide) (by decide)).1,
   (claim_C8.2 otherEntry (by decide) (by decide)).2 initState⟩

/-- C9: a thinking item anywhere in an assistant content array makes
has_thinking true on the projected message and on the session aggregate,
and the session's has_thinking / has_tool_use flags are monotone: once
true, no later record resets them. -/
theorem claim_C9 :
    (∀ (items : List ContentItem) (th : String) (sig : Option String),
      ContentItem.thinking th sig ∈ items → hasThinking items = true) ∧
    (∀ (e : RawLogEntry) (m : MessageObject),
      e.entry_type = "assistant" → e.message = some m →
      ∃ msg, entry_to_message e = some msg ∧
        msg.has_thinking = hasThinking m.content) ∧
    (∀ (fp : String) (lines : List (Except String String))
       (e : RawLogEntry) (m : MessageObject),
      e ∈ decodedEntries lines → e.entry_type = "assistant" →
      e.message = some m → hasThinking m.content = true →
      (get_session_summary fp lines).has_thinking = true) ∧
    (∀ (entries : List RawLogEntry) (st : SummaryState),
      (st.has_thinking_flag = true →
        (entries.foldl summaryStep st).has_thinking_flag = true) ∧
      (st.has_tool_use_flag = true →
        (entries.foldl summaryStep st).has_tool_use_flag = true)) := by
  refine ⟨?_, ?_, ?_, ?_⟩
  · intro items th sig h
    unfold hasThinking
    rw [List.any_eq_true]
    exact ⟨ContentItem.thinking th sig, h, rfl⟩
  · intro e m h1 h2
    obtain ⟨msg, hmsg, hth, _⟩ := entry_to_message_assistant h1 h2
    exact ⟨msg, hmsg, hth⟩
  · intro fp lines e m hmem h1 h2 h3
    unfold get_session_summary finalizeSummary
    rw [summaryLoop_eq_foldl]
    show (((decodedEntries lines).foldl summaryStep initState).has_thinking_flag) = true
    rw [foldl_think_flag]
    have hc : thinkContribution e = true := by
      simp [thinkContribution, h1, h2, h3]
    have hany : (decodedEntries lines).any thinkContribution = true :=
      List.any_eq_true.mpr ⟨e, hmem, hc⟩
    rw [hany]
    simp
  · intro entries st
    constructor
    · intro h
      rw [foldl_think_flag, h]
      rfl
    · intro h
      rw [foldl_tool_flag, h]
      rfl

/-- C9 witness: the concrete assistant line with a leading thinking item
exhibits has_thinking on the message and on the session, and the flag
survives an empty tail of records. -/
theorem claim_C9_witness :
    hasThinking sampleContent = true ∧
    (∃ msg, entry_to_message sampleAssistantEntry = some msg ∧
      msg.has_thinking = hasThinking sampleMessage.content) ∧
    (get_session_summary "f" [Except.ok assistantLine]).has_thinking = true ∧
    (([] : List RawLogEntry).foldl summaryStep
      { initState with has_thinking_flag := true }).has_thinking_flag = true := by
  refine ⟨?_, ?_, ?_, ?_⟩
  · exact claim_C9.1 sampleContent "x" none (List.mem_cons_self _ _)
  · exact claim_C9.2.1 sampleAssistantEntry sampleMessage rfl rfl
  · refine claim_C9.2.2.1 "f" [Except.ok assistantLine] sampleAssistantEntry
      sampleMessage ?_ rfl rfl rfl
    have hdec : decodedEntries [Except.ok assistantLine] = [sampleAssistantEntry] := rfl
    rw [hdec]
    exact List.mem_singleton.mpr rfl
  · exact (claim_C9.2.2.2 [] { initState with has_thinking_flag := true }).1 rfl

/-- C10: first_timestamp and last_timestamp of the returned session are
the first and last timestamps of the decoded stream, hence present
together; a stream with exactly one timestamped record yields both
present and equal. -/
theorem claim_C10 (fp : String) (lines : List (Except String String)) :
    (get_session_summary fp lines).first_timestamp =
      ((decodedEntries lines).filterMap RawLogEntry.timestamp).head? ∧
    (get_session_summary fp lines).last_timestamp =
      ((decodedEntries lines).filterMap RawLogEntry.timestamp).getLast? ∧
    ((get_session_summary fp lines).first_timestamp.isSome ↔
      (get_session_summary fp lines).last_timestamp.isSome) ∧
    (∀ t, (decodedEntries lines).filterMap RawLogEntry.timestamp = [t] →
      (get_session_summary fp lines).first_timestamp = some t ∧
      (get_session_summary fp lines).last_timestamp = some t) := by
  have hfirst : (get_session_summary fp lines).first_timestamp =
      ((decodedEntries lines).filterMap RawLogEntry.timestamp).head? := by
    unfold get_session_summary finalizeSummary
    rw [summaryLoop_eq_foldl]
    show ((decodedEntries lines).foldl summaryStep initState).first_timestamp = _
    rw [foldl_first_timestamp]
    rfl
  have hlast : (get_session_summary fp lines).last_timestamp =
      ((decodedEntries lines).filterMap RawLogEntry.timestamp).getLast? := by
    unfold get_session_summary finalizeSummary
    rw [summaryLoop_eq_foldl]
    show ((decodedEntries lines).foldl summaryStep initState).last_timestamp = _
    rw [foldl_last_timestamp]
    exact optOr_none_right _
  refine ⟨hfirst, hlast, ?_, ?_⟩
  · rw [hfirst, hlast]
    cases hts : (decodedEntries lines).filterMap RawLogEntry.timestamp with
    | nil => simp
    | cons t ys =>
      rw [List.head?_cons, isSome_getLast?_cons]
      simp
  · intro t ht
    rw [hfirst, hlast, ht]
    exact ⟨rfl, rfl⟩

/-- C10 witness: a single timestamped user line yields first and last
timestamps both present and equal. -/
theorem claim_C10_witness :
    (get_session_summary "f" [Except.ok userLine]).first_timestamp = some "t1" ∧
    (get_session_summary "f" [Except.ok userLine]).last_timestamp = some "t1" :=
  (claim_C10 "f" [Except.ok userLine]).2.2.2 "t1" rfl

end HistoryHub
